import Mathlib

/-!
Shallow embedding of the dploy deployment orchestration engine
(src/context.rs, src/cli.rs, src/commands/deploy.rs) and proofs of the
specification's claims about it.
-/

namespace Dploy

/-- Command kinds from src/cli.rs (`Command`): `Deploy` targets a remote host,
`Run` runs the full stack locally, `Dev` runs only the dependencies locally.
The payload fields (host, port, username, keyfile, sub-command, watch flag)
play no role in the claims modelled here. -/
inductive Command
  | deployCmd
  | runCmd
  | devCmd
  deriving DecidableEq, Repr

/-- Service kinds from src/services (`ServiceKind`): the declared dependency
types plus the application itself. The variant set is fixed by the matches in
src/context.rs (`container_name_of`) and src/cli.rs. -/
inductive ServiceKind
  | postgres
  | keydb
  | proxy
  | app
  deriving DecidableEq, Repr

/-- Modelled from the spec: `ServiceKind::is_singleton` lives in the services
module, which is not among the provided source files. The spec describes a
singleton service as shared infrastructure whose container identity does not
vary by application name; of the four kinds only the reverse proxy (which is
shared across applications and bound to the host network) fits that
description, while the App kind is explicitly non-singleton (its expected
name `demo_demo_dev` has the application name as prefix). -/
def ServiceKind.is_singleton : ServiceKind → Bool
  | .proxy => true
  | _ => false

/-- Modelled from the spec: the fixed default namespace constant from the
constants module, which is not among the provided source files. The spec only
requires it to be a fixed string; the value follows the tool's name. -/
def DEFAULT_NAMESPACE : String := "dploy"

/-- The immutable per-invocation context (src/context.rs `Context`), reduced
to the data `container_name_of` and the port-binding model consume: the active
namespace (`args.namespace()`), the resolved application name
(`app_config.name(&override_context)`) and the parsed command kind. -/
structure Context where
  activeNamespace : String
  appName : String
  command : Command
  deriving DecidableEq, Repr

/-- The `prefix` local of `Context::container_name_of` (src/context.rs:55-59):
the fixed singleton prefix for singleton kinds, else the configured
application name. -/
def Context.name_head_of (ctx : Context) (k : ServiceKind) : String :=
  if k.is_singleton then "dploy-singleton" else ctx.appName

/-- The `suffix` local of `Context::container_name_of` (src/context.rs:61-70):
the kind's fixed tag, or the application name again for the App kind. -/
def Context.name_tail_of (ctx : Context) (k : ServiceKind) : String :=
  match k with
  | .postgres => "postgres"
  | .keydb => "keydb"
  | .proxy => "proxy"
  | .app => ctx.appName

/-- The `namespace` local of `Context::container_name_of`
(src/context.rs:72-77): the proxy is not namespaced because it is exposed to
the host's network; every other kind uses the context's namespace. -/
def Context.namespace_segment_of (ctx : Context) (k : ServiceKind) : String :=
  if k = ServiceKind.proxy then DEFAULT_NAMESPACE else ctx.activeNamespace

/-- src/context.rs:54-80 `Context::container_name_of`:
`format!("{prefix}_{suffix}_{namespace}")`. -/
def Context.container_name_of (ctx : Context) (k : ServiceKind) : String :=
  ctx.name_head_of k ++ "_" ++ ctx.name_tail_of k ++ "_" ++ ctx.namespace_segment_of k

/-- src/context.rs:226-238 `HostPortBinding`: one exposed port seen from three
viewpoints. Ports are `u16` in the source; the claims involve no arithmetic on
them, so they are carried as `Nat`. -/
structure HostPortBinding where
  inner_port : Nat
  inner_host : String
  host_port : Option Nat
  host_host : String
  internal_port : Nat
  deriving DecidableEq, Repr

/-- src/context.rs:241-268 `HostPortBinding::new`. The source calls
`utils::network::free_port()` (an OS-allocated ephemeral port, external leaf
utility); the port it returns is passed in here as `freePort`. -/
def HostPortBinding.new (container_name : String) (internal_port : Nat)
    (command : Command) (freePort : Nat) : HostPortBinding :=
  let host_port : Option Nat :=
    match command with
    | .devCmd | .runCmd => some freePort
    | _ => none
  let host_host := "127.0.0.1"
  let inner_host :=
    match command with
    | .devCmd => host_host
    | _ => container_name
  let inner_port :=
    match command, host_port with
    | .devCmd, some port => port
    | _, _ => internal_port
  { inner_port := inner_port
    inner_host := inner_host
    host_port := host_port
    host_host := host_host
    internal_port := internal_port }

/-- `bollard::models::PortBinding`: the host-side view submitted to the
container runtime. -/
structure PortBinding where
  host_ip : Option String
  host_port : Option String
  deriving DecidableEq, Repr

/-- Association-list model of the key-value maps the source uses
(`HashMap<String, _>` in `to_port_bindings`, `BTreeMap<String, String>` in
`get_existing_env`): lookup returns the entry for the key. `ainsert` keeps
keys unique, so the first matching entry is the only one. -/
def alookup {α : Type} (m : List (String × α)) (k : String) : Option α :=
  (m.find? (fun p => p.1 = k)).map Prod.snd

/-- `insert` on the association-list map model: any previous entry for the
key is dropped and the new entry appended, exactly the replace-on-insert
behaviour of `HashMap::insert` and `BTreeMap::insert`. -/
def ainsert {α : Type} (m : List (String × α)) (kv : String × α) :
    List (String × α) :=
  m.filter (fun p => p.1 ≠ kv.1) ++ [kv]

/-- Key of the map entry `to_port_bindings` makes for a binding:
`format!("{internal_port}/tcp")` (src/context.rs:293). -/
def HostPortBinding.bindingKey (b : HostPortBinding) : String :=
  toString b.internal_port ++ "/tcp"

/-- Value of the map entry `to_port_bindings` makes for a binding with host
port `hp` (src/context.rs:294-297): a single-element vector carrying the
binding's host address and host port. -/
def HostPortBinding.bindingValue (b : HostPortBinding) (hp : Nat) :
    Option (List PortBinding) :=
  some [{ host_ip := some b.host_host, host_port := some (toString hp) }]

/-- src/context.rs:280-303 `HostPortBinding::to_port_bindings`: fold the
bindings into a protocol-qualified map; bindings with no `host_port`
contribute nothing. -/
def to_port_bindings (bindings : List HostPortBinding) :
    List (String × Option (List PortBinding)) :=
  bindings.foldl
    (fun map binding =>
      match binding.host_port with
      | some hp => ainsert map (binding.bindingKey, binding.bindingValue hp)
      | none => map)
    []

/-- The map entry a single exposed binding contributes: `none` when the
binding has no host port (it is unexposed and contributes nothing), else the
single-element vector built from its host address and host port. Used to
state what `to_port_bindings` returns. -/
def HostPortBinding.portEntryOf (b : HostPortBinding) :
    Option (Option (List PortBinding)) :=
  b.host_port.map (fun hp => b.bindingValue hp)

/-! ## Lifecycle reconciler (src/commands/deploy.rs) -/

/-- Outcome of `docker.inspect_container` as the reconcilers classify it
(src/commands/deploy.rs:153-159): a 404 response means not found, a
successful response carries the container info (of which only the running
flag matters here), any other error is a transport error. -/
inductive InspectResult
  | notFound
  | found (running : Bool)
  | transportError
  deriving DecidableEq, Repr

/-- Container-runtime calls a reconciliation issues, in order. -/
inductive DockerOp
  | build
  | pull
  | stop
  | remove
  | create
  | start
  deriving DecidableEq, Repr

/-- src/commands/deploy.rs:140-189 `deploy_app_service`, as the trace of
container-runtime calls it performs given the inspect outcome, paired with
whether it succeeds. It builds the image, inspects the target name, and:
on a non-404 inspect error returns that error; when a container was found it
stops it (unconditionally, src/commands/deploy.rs:163) and removes it; then
creates and starts the replacement. -/
def deploy_app_service (inspect : InspectResult) : List DockerOp × Bool :=
  match inspect with
  | .transportError => ([DockerOp.build], false)
  | .notFound => ([DockerOp.build, DockerOp.create, DockerOp.start], true)
  | .found _ =>
      ([DockerOp.build, DockerOp.stop, DockerOp.remove,
        DockerOp.create, DockerOp.start], true)

/-- One iteration of src/commands/deploy.rs:286-338 (`deploy_dependencies`
loop body) for a single dependency, as the trace of container-runtime calls
given the inspect outcome: pull the image, inspect; on a transport error
propagate it; when a container was found, stop it only if it is running
(src/commands/deploy.rs:312-314), remove it unconditionally; then create and
start. `docker::inspect_container` and `docker::check_container_running` are
thin wrappers (not among the provided source files) whose combined answer is
the `InspectResult`. -/
def deploy_dependency (inspect : InspectResult) : List DockerOp × Bool :=
  match inspect with
  | .transportError => ([DockerOp.pull], false)
  | .notFound => ([DockerOp.pull, DockerOp.create, DockerOp.start], true)
  | .found running =>
      ([DockerOp.pull] ++ (if running then [DockerOp.stop] else [])
        ++ [DockerOp.remove, DockerOp.create, DockerOp.start], true)

/-! ## Dependency sequencer and watch entry (src/commands/deploy.rs) -/

/-- Steps the sequencer (`deploy`) performs, at the granularity the claims
need: the non-fatal env-file load, env generation, network creation, a
container-runtime call for a dependency or for the app service, the post-up
hooks and the connection-info printout. -/
inductive Action
  | loadEnv
  | generateEnv
  | createNetwork
  | dep (op : DockerOp)
  | app (op : DockerOp)
  | postUp
  | printInfo
  deriving DecidableEq, Repr

/-- src/context.rs:127-131 `Context::should_generate_env_file`. -/
def Context.should_generate_env_file (ctx : Context) : Bool :=
  match ctx.command with
  | .devCmd | .runCmd => true
  | _ => false

/-- src/context.rs:133-137 `Context::should_create_network`. -/
def Context.should_create_network (ctx : Context) : Bool :=
  match ctx.command with
  | .devCmd | .runCmd => true
  | _ => false

/-- src/context.rs:109-113 `Context::should_print_connection_info`. -/
def Context.should_print_connection_info (ctx : Context) : Bool :=
  match ctx.command with
  | .devCmd | .runCmd => true
  | _ => false

/-- src/commands/deploy.rs:279-341 `deploy_dependencies`: reconcile each
declared dependency in order, aborting on the first failure. -/
def deploy_dependencies : List InspectResult → List DockerOp × Bool
  | [] => ([], true)
  | i :: rest =>
      let step := deploy_dependency i
      if step.2 then
        let tail := deploy_dependencies rest
        (step.1 ++ tail.1, tail.2)
      else
        (step.1, false)

/-- src/commands/deploy.rs:23-60 `deploy`: one full deployment attempt as a
trace of `Action`s plus success. Inputs beyond the context: the inspect
outcome for each declared dependency in order, and for the app service when
one is configured (`services.app()`). -/
def deploy (ctx : Context) (deps : List InspectResult)
    (appInspect : Option InspectResult) : List Action × Bool :=
  let t0 : List Action :=
    [Action.loadEnv]
      ++ (if ctx.should_generate_env_file then [Action.generateEnv] else [])
      ++ (if ctx.should_create_network then [Action.createNetwork] else [])
  let depsRun := deploy_dependencies deps
  if depsRun.2 then
    let appRun :=
      match appInspect with
      | some i => deploy_app_service i
      | none => ([], true)
    if appRun.2 then
      (t0 ++ depsRun.1.map Action.dep ++ appRun.1.map Action.app
        ++ [Action.postUp]
        ++ (if ctx.should_print_connection_info then [Action.printInfo] else []),
       true)
    else
      (t0 ++ depsRun.1.map Action.dep ++ appRun.1.map Action.app, false)
  else
    (t0 ++ depsRun.1.map Action.dep, false)

/-- src/commands/deploy.rs:62-138 `deploy_watch`, up to its first deployment:
with an empty watch-path list it bails out (src/commands/deploy.rs:68-70)
before `deploy` is called, so no action at all is performed; otherwise the
initial full deployment runs (the subsequent watch loop is modelled
separately by `watchStep`/`watchRun`). -/
def deploy_watch (ctx : Context) (deps : List InspectResult)
    (appInspect : Option InspectResult) (watch_paths : List String) :
    List Action × Bool :=
  if watch_paths.isEmpty then ([], false)
  else deploy ctx deps appInspect

/-! ## Watch-rebuild loop (src/commands/deploy.rs:98-131) -/

/-- src/commands/deploy.rs:21: `WATCH_COOLDOWN = Duration::from_secs(3)`.
Time is modelled in whole seconds. -/
def WATCH_COOLDOWN : Nat := 3

/-- One debounced filesystem event; only whether `event.kind.is_modify()`
holds matters to the loop. -/
structure WatchEvent where
  isModify : Bool
  deriving DecidableEq, Repr

/-- Watch-loop state: the instant of the most recent rebuild (`last_deploy`)
and how many rebuilds have been performed. -/
structure WatchState where
  lastDeploy : Nat
  rebuilds : Nat
  deriving DecidableEq, Repr

/-- src/commands/deploy.rs:106-130, one delivered event batch: if the batch
arrives inside the cooldown window, is empty, or contains no modification
event, it is discarded with no state change (`continue`); otherwise the app
service is redeployed and `last_deploy` is reset to the current instant. -/
def watchStep (s : WatchState) (tick : Nat × List WatchEvent) : WatchState :=
  if tick.1 - s.lastDeploy < WATCH_COOLDOWN
      || tick.2.isEmpty
      || !(tick.2.any (fun e => e.isModify)) then
    s
  else
    { lastDeploy := tick.1, rebuilds := s.rebuilds + 1 }

/-- The watch loop over a sequence of delivered batches, each tagged with its
arrival instant, starting right after the initial deployment at instant
`start` (src/commands/deploy.rs:98: `last_deploy = Instant::now()`). -/
def watchRun (start : Nat) (ticks : List (Nat × List WatchEvent)) : WatchState :=
  ticks.foldl watchStep { lastDeploy := start, rebuilds := 0 }

/-! ## Environment materializer (src/commands/deploy.rs:191-277) -/

/-- src/commands/deploy.rs:235-256 `get_existing_env` on a file whose
parseable `NAME=VALUE` lines are `entries`, in file order: each parsed line
is inserted into the map, later lines overwriting earlier ones (comment and
blank lines contribute nothing and are dropped by the parser upstream). -/
def buildEnvMap (entries : List (String × String)) : List (String × String) :=
  entries.foldl ainsert []

/-- src/commands/deploy.rs:197-209: the candidate app-owned name set —
names declared in configuration plus names found in the pre-existing file
(`HashSet` insertion), minus every name of a service-exported variable
(`HashSet::remove`). Modelled as a duplicate-free list; the source's
`HashSet` iteration order is unspecified, and no claim depends on order. -/
def own_env_vars_names (cfgEnv : List String) (existing : List (String × String))
    (svcVars : List (String × String)) : List String :=
  ((cfgEnv ++ existing.map Prod.fst).dedup).filter
    (fun n => !((svcVars.map Prod.fst).contains n))

/-- src/commands/deploy.rs:211-224: the app-owned section — each surviving
app-owned name paired with its value from the pre-existing file when present
there, and the empty string otherwise. -/
def own_env_vars (cfgEnv : List String) (existing : List (String × String))
    (svcVars : List (String × String)) : List (String × String) :=
  (own_env_vars_names cfgEnv existing svcVars).map
    (fun n => (n, (alookup existing n).getD ""))

/-- src/commands/deploy.rs:258-277 `generate_env_file`, as the `NAME=VALUE`
entries the written file yields back to the parser: all service-owned pairs
first, then the app-owned pairs (the separator banner lines in between are
comments and parse to nothing). -/
def generated_file_entries (svcVars ownVars : List (String × String)) :
    List (String × String) :=
  svcVars ++ ownVars

/-- src/commands/deploy.rs:191-233 `generate_env`, one generation:
from the configured app variable names, the service-exported variables of the
active dependencies, and the parse of the pre-existing file (`none` when the
file is missing or unreadable, src/commands/deploy.rs:192-194), produce the
app-owned section that is persisted. -/
def generate_env_own (cfgEnv : List String) (svcVars : List (String × String))
    (existing : Option (List (String × String))) : List (String × String) :=
  own_env_vars cfgEnv (existing.getD []) svcVars

/-! ## Helper lemmas on the association-list map model -/

theorem alookup_cons {α : Type} (p : String × α) (m : List (String × α)) (k : String) :
    alookup (p :: m) k = if p.1 = k then some p.2 else alookup m k := by
  by_cases h : p.1 = k <;> simp [alookup, List.find?_cons, h]

theorem alookup_append {α : Type} (l₁ l₂ : List (String × α)) (k : String) :
    alookup (l₁ ++ l₂) k =
      match alookup l₁ k with
      | some v => some v
      | none => alookup l₂ k := by
  unfold alookup
  rw [List.find?_append]
  cases List.find? (fun p => p.1 = k) l₁ <;> simp [Option.or]

theorem alookup_filter_ne {α : Type} (m : List (String × α)) (x k : String) :
    alookup (m.filter fun p => p.1 ≠ x) k = if k = x then none else alookup m k := by
  induction m with
  | nil => by_cases h : k = x <;> simp [alookup, h]
  | cons q rest ih =>
    by_cases hq : q.1 = x
    · rw [List.filter_cons_of_neg (by simp [hq]), ih, alookup_cons]
      by_cases hk : k = x
      · simp [hk]
      · have hqk : ¬ q.1 = k := fun h => hk (h ▸ hq)
        simp [hqk]
    · rw [List.filter_cons_of_pos (by simp [hq]), alookup_cons, alookup_cons, ih]
      by_cases hqk : q.1 = k
      · have hk : ¬ k = x := fun h => hq (hqk.trans h)
        simp [hqk, hk]
      · simp [hqk]

theorem alookup_ainsert {α : Type} (m : List (String × α)) (kv : String × α) (k : String) :
    alookup (ainsert m kv) k = if k = kv.1 then some kv.2 else alookup m k := by
  unfold ainsert
  rw [alookup_append, alookup_filter_ne]
  by_cases h : k = kv.1
  · simp [h, alookup_cons]
  · have h' : ¬ kv.1 = k := fun hh => h hh.symm
    simp only [if_neg h]
    cases alookup m k <;> simp [alookup_cons, alookup, h']

theorem keys_ainsert_mem {α : Type} (m : List (String × α)) (kv : String × α) (n : String) :
    n ∈ (ainsert m kv).map Prod.fst ↔ n ∈ m.map Prod.fst ∨ n = kv.1 := by
  simp only [ainsert, List.map_append, List.mem_append, List.map_cons, List.map_nil,
    List.mem_map, List.mem_filter, List.mem_singleton]
  constructor
  · rintro (⟨p, ⟨hp, _⟩, rfl⟩ | h)
    · exact Or.inl ⟨p, hp, rfl⟩
    · exact Or.inr h
  · rintro (⟨p, hp, rfl⟩ | h)
    · by_cases hx : p.1 = kv.1
      · exact Or.inr hx
      · exact Or.inl ⟨p, ⟨hp, by simpa using hx⟩, rfl⟩
    · exact Or.inr h

theorem buildEnvMap_concat (l : List (String × String)) (kv : String × String) :
    buildEnvMap (l ++ [kv]) = ainsert (buildEnvMap l) kv := by
  simp [buildEnvMap, List.foldl_append]

theorem keys_buildEnvMap_mem (entries : List (String × String)) (n : String) :
    n ∈ (buildEnvMap entries).map Prod.fst ↔ n ∈ entries.map Prod.fst := by
  induction entries using List.reverseRecOn with
  | nil => simp [buildEnvMap]
  | append_singleton rest kv ih =>
    rw [buildEnvMap_concat, keys_ainsert_mem, ih]
    simp

theorem alookup_buildEnvMap_uniform (entries : List (String × String)) (n v : String)
    (hmem : n ∈ entries.map Prod.fst)
    (huni : ∀ p ∈ entries, p.1 = n → p.2 = v) :
    alookup (buildEnvMap entries) n = some v := by
  induction entries using List.reverseRecOn with
  | nil => simp at hmem
  | append_singleton rest kv ih =>
    rw [buildEnvMap_concat, alookup_ainsert]
    by_cases h : n = kv.1
    · rw [if_pos h, huni kv (by simp) h.symm]
    · rw [if_neg h]
      refine ih ?_ ?_
      · rcases (by simpa using hmem : (∃ x, (n, x) ∈ rest) ∨ n = kv.1) with ⟨x, hx⟩ | h2
        · exact List.mem_map.mpr ⟨(n, x), hx, rfl⟩
        · exact absurd h2 h
      · intro p hp hpn
        exact huni p (by simp [hp]) hpn

theorem alookup_map_value (names : List String) (f : String → String) (k : String) :
    alookup (names.map fun n => (n, f n)) k =
      if k ∈ names then some (f k) else none := by
  induction names with
  | nil => simp [alookup]
  | cons a rest ih =>
    rw [List.map_cons, alookup_cons, ih]
    by_cases h : a = k
    · simp [h]
    · have h' : ¬ k = a := fun hh => h hh.symm
      by_cases hr : k ∈ rest <;> simp [h, h', hr]

theorem mem_keys_of_alookup {α : Type} (m : List (String × α)) (k : String) (v : α)
    (h : alookup m k = some v) : k ∈ m.map Prod.fst := by
  unfold alookup at h
  rcases Option.map_eq_some'.mp h with ⟨p, hfind, _⟩
  have hmem := List.mem_of_find?_eq_some hfind
  have hpred := List.find?_some hfind
  simp only [decide_eq_true_eq] at hpred
  exact List.mem_map.mpr ⟨p, hmem, hpred⟩

theorem mem_own_env_vars_names (cfgEnv : List String)
    (existing svcVars : List (String × String)) (n : String) :
    n ∈ own_env_vars_names cfgEnv existing svcVars ↔
      (n ∈ cfgEnv ∨ n ∈ existing.map Prod.fst) ∧ ¬ n ∈ svcVars.map Prod.fst := by
  simp [own_env_vars_names, List.mem_filter, List.mem_dedup, List.mem_append]

theorem mem_ainsert {α : Type} (m : List (String × α)) (kv p : String × α)
    (h : p ∈ ainsert m kv) : p ∈ m ∨ p = kv := by
  rcases List.mem_append.mp h with h1 | h2
  · exact Or.inl (List.mem_filter.mp h1).1
  · exact Or.inr (List.mem_singleton.mp h2)

theorem keys_ainsert_nodup {α : Type} (m : List (String × α)) (kv : String × α)
    (h : (m.map Prod.fst).Nodup) : ((ainsert m kv).map Prod.fst).Nodup := by
  unfold ainsert
  rw [List.map_append, List.nodup_append]
  refine ⟨?_, List.nodup_singleton _, ?_⟩
  · exact h.sublist (List.Sublist.map Prod.fst (List.filter_sublist m))
  · intro x hx hx1
    rcases List.mem_map.mp hx with ⟨p, hp, rfl⟩
    have hne : p.1 ≠ kv.1 := by simpa using (List.mem_filter.mp hp).2
    simp only [List.map_cons, List.map_nil, List.mem_singleton] at hx1
    exact hne hx1

theorem to_port_bindings_concat (bs : List HostPortBinding) (b : HostPortBinding) :
    to_port_bindings (bs ++ [b]) =
      match b.host_port with
      | some hp => ainsert (to_port_bindings bs) (b.bindingKey, b.bindingValue hp)
      | none => to_port_bindings bs := by
  simp only [to_port_bindings, List.foldl_append, List.foldl_cons, List.foldl_nil]

theorem alookup_own_env_vars (cfgEnv : List String)
    (existing svcVars : List (String × String)) (k : String) :
    alookup (own_env_vars cfgEnv existing svcVars) k =
      if k ∈ own_env_vars_names cfgEnv existing svcVars
      then some ((alookup existing k).getD "")
      else none := by
  unfold own_env_vars
  exact alookup_map_value _ _ k

theorem alookup_to_port_bindings (bs : List HostPortBinding) (k : String) :
    alookup (to_port_bindings bs) k =
      ((bs.filter (fun b => b.host_port.isSome && (b.bindingKey == k))).getLast?).bind
        HostPortBinding.portEntryOf := by
  induction bs using List.reverseRecOn with
  | nil => simp [to_port_bindings, alookup]
  | append_singleton rest b ih =>
    rw [to_port_bindings_concat, List.filter_append]
    rcases hb : b.host_port with _ | hp
    · simp only [hb]
      have hone : List.filter
          (fun x => x.host_port.isSome && (x.bindingKey == k)) [b] = [] := by
        simp [hb]
      rw [hone, List.append_nil, ih]
    · simp only [hb]
      rw [alookup_ainsert]
      by_cases hk : b.bindingKey = k
      · have hone : List.filter
            (fun x => x.host_port.isSome && (x.bindingKey == k)) [b] = [b] := by
          simp [hb, hk]
        rw [hone, List.getLast?_concat, if_pos hk.symm]
        simp [HostPortBinding.portEntryOf, hb]
      · have hone : List.filter
            (fun x => x.host_port.isSome && (x.bindingKey == k)) [b] = [] := by
          simp [hb, hk]
        rw [hone, List.append_nil, if_neg (fun h => hk h.symm), ih]

theorem to_port_bindings_keys_nodup (bs : List HostPortBinding) :
    ((to_port_bindings bs).map Prod.fst).Nodup := by
  induction bs using List.reverseRecOn with
  | nil => simp [to_port_bindings]
  | append_singleton rest b ih =>
    rw [to_port_bindings_concat]
    rcases hb : b.host_port with _ | hp
    · simp only [hb]
      exact ih
    · simp only [hb]
      exact keys_ainsert_nodup _ _ ih

theorem to_port_bindings_values_singleton (bs : List HostPortBinding) :
    ∀ p ∈ to_port_bindings bs, ∃ pb : PortBinding, p.2 = some [pb] := by
  induction bs using List.reverseRecOn with
  | nil =>
    intro p hp
    simp [to_port_bindings] at hp
  | append_singleton rest b ih =>
    intro p hp
    rw [to_port_bindings_concat] at hp
    rcases hb : b.host_port with _ | hp'
    · rw [hb] at hp
      exact ih p hp
    · rw [hb] at hp
      rcases mem_ainsert _ _ _ hp with h1 | h2
      · exact ih p h1
      · subst h2
        exact ⟨_, rfl⟩

/-! ## Claim theorems -/

/-- C2: `container_name_of` is a pure function of (namespace, app name,
service kind) — contexts agreeing on namespace and app name produce the same
name for every kind — and its result is prefix, suffix and namespace segment
joined by underscores, where the prefix is the fixed singleton prefix for
singleton kinds and the configured application name otherwise; for the App
kind with app name "demo" and namespace "dev" the result is exactly
"demo_demo_dev". -/
theorem container_name_of_spec :
    (∀ ctx₁ ctx₂ : Context, ∀ k : ServiceKind,
      ctx₁.activeNamespace = ctx₂.activeNamespace →
      ctx₁.appName = ctx₂.appName →
      ctx₁.container_name_of k = ctx₂.container_name_of k) ∧
    (∀ (ctx : Context) (k : ServiceKind),
      ctx.container_name_of k =
        (if k.is_singleton then "dploy-singleton" else ctx.appName) ++ "_" ++
          ctx.name_tail_of k ++ "_" ++ ctx.namespace_segment_of k) ∧
    (∀ cmd : Command,
      (Context.mk "dev" "demo" cmd).container_name_of ServiceKind.app
        = "demo_demo_dev") := by
  refine ⟨?_, ?_, ?_⟩
  · intro ctx₁ ctx₂ k hns happ
    cases ctx₁
    cases ctx₂
    simp only at hns happ
    subst hns
    subst happ
    cases k <;> rfl
  · intro ctx k
    rfl
  · intro cmd
    rfl

/-- C2 witness: two contexts sharing namespace "dev" and app name "demo" but
parsed from different commands give the same container name. -/
theorem container_name_of_spec_witness :
    (Context.mk "dev" "demo" Command.runCmd).container_name_of ServiceKind.postgres =
      (Context.mk "dev" "demo" Command.deployCmd).container_name_of ServiceKind.postgres :=
  container_name_of_spec.1 (Context.mk "dev" "demo" Command.runCmd)
    (Context.mk "dev" "demo" Command.deployCmd) ServiceKind.postgres rfl rfl

/-- C3: the proxy — the network-exposure-fixed kind — always gets the default
namespace segment, whatever the context's active namespace is (its container
name does not depend on the active namespace at all), while every other kind
gets the context's active namespace. -/
theorem proxy_uses_default_namespace :
    (∀ ctx : Context,
      ctx.namespace_segment_of ServiceKind.proxy = DEFAULT_NAMESPACE) ∧
    (∀ (ns₁ ns₂ app : String) (cmd₁ cmd₂ : Command),
      (Context.mk ns₁ app cmd₁).container_name_of ServiceKind.proxy =
        (Context.mk ns₂ app cmd₂).container_name_of ServiceKind.proxy) ∧
    (∀ (ctx : Context) (k : ServiceKind), k ≠ ServiceKind.proxy →
      ctx.namespace_segment_of k = ctx.activeNamespace) := by
  refine ⟨fun ctx => rfl, fun ns₁ ns₂ app cmd₁ cmd₂ => rfl, ?_⟩
  intro ctx k hk
  unfold Context.namespace_segment_of
  rw [if_neg hk]

/-- C3 witness: with active namespace "dev" the app kind's namespace segment
is "dev", while the proxy's is the default namespace. -/
theorem proxy_uses_default_namespace_witness :
    (Context.mk "dev" "demo" Command.runCmd).namespace_segment_of ServiceKind.app
      = "dev" :=
  proxy_uses_default_namespace.2.2 (Context.mk "dev" "demo" Command.runCmd)
    ServiceKind.app (by decide)

/-- C4: `HostPortBinding::new` by command kind — Run (local full stack):
host port present, inner host is the container name, inner port equals the
internal port; Deploy (remote): host port absent, inner host is the container
name, inner port equals the internal port; Dev (local dependencies only):
host port present, inner host is 127.0.0.1, and the inner port equals the
host port. -/
theorem host_port_binding_new_spec :
    ∀ (name : String) (ip fp : Nat),
      (HostPortBinding.new name ip Command.runCmd fp).host_port = some fp ∧
      (HostPortBinding.new name ip Command.runCmd fp).inner_host = name ∧
      (HostPortBinding.new name ip Command.runCmd fp).inner_port = ip ∧
      (HostPortBinding.new name ip Command.deployCmd fp).host_port = none ∧
      (HostPortBinding.new name ip Command.deployCmd fp).inner_host = name ∧
      (HostPortBinding.new name ip Command.deployCmd fp).inner_port = ip ∧
      (HostPortBinding.new name ip Command.devCmd fp).host_port = some fp ∧
      (HostPortBinding.new name ip Command.devCmd fp).inner_host = "127.0.0.1" ∧
      (HostPortBinding.new name ip Command.devCmd fp).host_port =
        some ((HostPortBinding.new name ip Command.devCmd fp).inner_port) :=
  fun _ _ _ => ⟨rfl, rfl, rfl, rfl, rfl, rfl, rfl, rfl, rfl⟩

/-- C1 counterexample: the app-service reconciler, on a Found container that
is not running, still performs a stop call — its teardown is build, stop,
remove, create, start — contradicting the claim that a Found container that
is not running receives no stop call for app service and dependencies
alike. -/
theorem app_service_stops_non_running_container :
    deploy_app_service (InspectResult.found false) =
      ([DockerOp.build, DockerOp.stop, DockerOp.remove, DockerOp.create,
        DockerOp.start], true) ∧
    DockerOp.stop ∈ (deploy_app_service (InspectResult.found false)).1 := by
  decide

/-- C1 amended: for every service the dependency sequencer reconciles, a
Found container that is running receives stop, remove, create, start in that
order; a Found dependency container that is not running receives no stop
call (pull, remove, create, start only); but the app-service reconciler
stops a Found container unconditionally, whether or not it is running. -/
theorem reconcile_found_teardown :
    ∀ running : Bool,
      deploy_dependency (InspectResult.found true) =
        ([DockerOp.pull, DockerOp.stop, DockerOp.remove, DockerOp.create,
          DockerOp.start], true) ∧
      deploy_dependency (InspectResult.found false) =
        ([DockerOp.pull, DockerOp.remove, DockerOp.create, DockerOp.start], true) ∧
      deploy_app_service (InspectResult.found running) =
        ([DockerOp.build, DockerOp.stop, DockerOp.remove, DockerOp.create,
          DockerOp.start], true) := by
  intro running
  refine ⟨by decide, by decide, ?_⟩
  cases running <;> rfl

/-- C7: the inspect outcome is classified into exactly three cases — a
404-style not-found leads directly to create then start with no stop or
remove call, a found container is torn down first, and any other inspect
error aborts the reconciliation with no create or start attempted. -/
theorem inspect_outcome_classification :
    deploy_app_service InspectResult.notFound =
      ([DockerOp.build, DockerOp.create, DockerOp.start], true) ∧
    (∀ running : Bool,
      deploy_app_service (InspectResult.found running) =
        ([DockerOp.build, DockerOp.stop, DockerOp.remove, DockerOp.create,
          DockerOp.start], true)) ∧
    deploy_app_service InspectResult.transportError = ([DockerOp.build], false) :=
  ⟨rfl, fun running => by cases running <;> rfl, rfl⟩

/-- C8: invoking the watch-mode deployment with an empty watch-path list
returns a fatal setup error before any deployment step: the performed action
trace is empty (so no environment generation, no network creation, no
container operation) and the outcome is failure, for every context and every
would-be inspect outcome. -/
theorem watch_empty_paths_fails_before_deploy :
    ∀ (ctx : Context) (deps : List InspectResult)
      (appInspect : Option InspectResult),
      deploy_watch ctx deps appInspect [] = ([], false) :=
  fun _ _ _ => rfl

/-- C9: in the watch loop, a step rebuilds (increments the rebuild count and
resets the cooldown timer to the batch's arrival instant) exactly when the
batch is non-empty, contains a modification event, and at least the cooldown
window has elapsed since the most recent rebuild; every other batch is
discarded with the state — in particular the cooldown timer — unchanged.
Consequently two modification batches arriving within one cooldown window
after a rebuild yield exactly that one rebuild, not two. -/
theorem watch_loop_debounce :
    (∀ (s : WatchState) (now : Nat) (events : List WatchEvent),
      ((watchStep s (now, events)).rebuilds = s.rebuilds + 1 ↔
        WATCH_COOLDOWN ≤ now - s.lastDeploy ∧ events ≠ [] ∧
          events.any (fun e => e.isModify) = true) ∧
      (now - s.lastDeploy < WATCH_COOLDOWN ∨ events = [] ∨
          events.any (fun e => e.isModify) = false →
        watchStep s (now, events) = s)) ∧
    (∀ (t0 t1 t2 : Nat) (e0 e1 e2 : List WatchEvent),
      WATCH_COOLDOWN ≤ t0 →
      e0.any (fun e => e.isModify) = true →
      e1.any (fun e => e.isModify) = true →
      e2.any (fun e => e.isModify) = true →
      t1 - t0 < WATCH_COOLDOWN →
      t2 - t0 < WATCH_COOLDOWN →
      (watchRun 0 [(t0, e0), (t1, e1), (t2, e2)]).rebuilds = 1) := by
  have hstep : ∀ (s : WatchState) (now : Nat) (events : List WatchEvent),
      watchStep s (now, events) =
        if WATCH_COOLDOWN ≤ now - s.lastDeploy ∧ events ≠ [] ∧
            events.any (fun e => e.isModify) = true
        then { lastDeploy := now, rebuilds := s.rebuilds + 1 }
        else s := by
    intro s now events
    simp only [watchStep]
    by_cases h1 : now - s.lastDeploy < WATCH_COOLDOWN
    · rw [if_pos, if_neg]
      · intro hc
        exact absurd hc.1 (Nat.not_le.mpr h1)
      · simp [h1]
    · by_cases h2 : events = []
      · subst h2
        simp
      · by_cases h3 : events.any (fun e => e.isModify) = true
        · rw [if_neg, if_pos ⟨Nat.not_lt.mp h1, h2, h3⟩]
          simp [h1, h3, List.isEmpty_iff, h2]
        · rw [if_pos, if_neg]
          · intro hc
            exact h3 hc.2.2
          · simp only [Bool.not_eq_true] at h3
            simp [h3]
  constructor
  · intro s now events
    constructor
    · rw [hstep]
      by_cases hc : WATCH_COOLDOWN ≤ now - s.lastDeploy ∧ events ≠ [] ∧
          events.any (fun e => e.isModify) = true
      · simp [hc]
      · rw [if_neg hc]
        constructor
        · intro habs
          omega
        · intro h
          exact absurd h hc
    · intro h
      rw [hstep, if_neg]
      intro hc
      rcases h with h1 | h2 | h3
      · exact Nat.not_le.mpr h1 hc.1
      · exact hc.2.1 h2
      · rw [hc.2.2] at h3
        cases h3
  · intro t0 t1 t2 e0 e1 e2 h0 hm0 hm1 hm2 h1 h2
    have he0 : e0 ≠ [] := by
      intro he
      subst he
      simp at hm0
    have step1 : watchStep { lastDeploy := 0, rebuilds := 0 } (t0, e0) =
        { lastDeploy := t0, rebuilds := 1 } := by
      rw [hstep, if_pos ⟨by simpa using h0, he0, hm0⟩]
    have step2 : watchStep { lastDeploy := t0, rebuilds := 1 } (t1, e1) =
        { lastDeploy := t0, rebuilds := 1 } := by
      rw [hstep, if_neg]
      intro hc
      exact Nat.not_le.mpr h1 hc.1
    have step3 : watchStep { lastDeploy := t0, rebuilds := 1 } (t2, e2) =
        { lastDeploy := t0, rebuilds := 1 } := by
      rw [hstep, if_neg]
      intro hc
      exact Nat.not_le.mpr h2 hc.1
    simp only [watchRun, List.foldl_cons, List.foldl_nil, step1, step2, step3]

/-- C9 witness: with cooldown 3 and the initial deployment at instant 0, a
modification batch at instant 3 rebuilds, and two further modification
batches at instants 4 and 5 (inside the window) are discarded: exactly one
rebuild. -/
theorem watch_loop_debounce_witness :
    (watchRun 0 [(3, [{ isModify := true }]), (4, [{ isModify := true }]),
      (5, [{ isModify := true }])]).rebuilds = 1 :=
  watch_loop_debounce.2 3 4 5 [{ isModify := true }] [{ isModify := true }]
    [{ isModify := true }] (by decide) (by decide) (by decide) (by decide)
    (by decide) (by decide)

/-- C10: the map `to_port_bindings` returns has an entry for the key
`internal_port ++ "/tcp"` of each exposed binding (bindings without a host
port contribute nothing), the entry's value comes from the LAST binding in
the list with that internal port — its single-element vector of host address
and host port — so earlier duplicates are silently overwritten; and the keys
are duplicate-free, so no internal port is ever published under two host
ports. -/
theorem to_port_bindings_spec :
    ∀ (bs : List HostPortBinding) (k : String),
      (alookup (to_port_bindings bs) k =
        ((bs.filter
          (fun b => b.host_port.isSome && (b.bindingKey == k))).getLast?).bind
          HostPortBinding.portEntryOf) ∧
      ((to_port_bindings bs).map Prod.fst).Nodup ∧
      (∀ p ∈ to_port_bindings bs, ∃ pb : PortBinding, p.2 = some [pb]) :=
  fun bs k =>
    ⟨alookup_to_port_bindings bs k, to_port_bindings_keys_nodup bs,
      to_port_bindings_values_singleton bs⟩

/-- C10 witness: on two exposed bindings that share internal port 80, the
entry under "80/tcp" is the later binding's single-element vector (host port
2000), and its value is a single-element vector. -/
theorem to_port_bindings_spec_witness :
    alookup
        (to_port_bindings
          [HostPortBinding.mk 80 "svc" (some 1000) "127.0.0.1" 80,
            HostPortBinding.mk 80 "svc" (some 2000) "127.0.0.1" 80]) "80/tcp" =
      some (some [PortBinding.mk (some "127.0.0.1") (some "2000")]) ∧
    ∃ pb : PortBinding,
      (("80/tcp",
        some [PortBinding.mk (some "127.0.0.1") (some "2000")]) :
          String × Option (List PortBinding)).2 = some [pb] := by
  constructor
  · rw [(to_port_bindings_spec
      [HostPortBinding.mk 80 "svc" (some 1000) "127.0.0.1" 80,
        HostPortBinding.mk 80 "svc" (some 2000) "127.0.0.1" 80] "80/tcp").1]
    decide
  · exact (to_port_bindings_spec
      [HostPortBinding.mk 80 "svc" (some 1000) "127.0.0.1" 80,
        HostPortBinding.mk 80 "svc" (some 2000) "127.0.0.1" 80] "80/tcp").2.2
      ("80/tcp", some [PortBinding.mk (some "127.0.0.1") (some "2000")])
      (by decide)

/-- C5: the persisted app-owned variable set is exactly the union of the
names declared in configuration and the names found in the pre-existing
environment file, minus every name exported by an active dependency (service
ownership wins); each surviving app-owned name's value comes from the
pre-existing file when present there and is "" otherwise; and a name claimed
by a dependency never appears in the app-owned section. -/
theorem generate_env_app_owned_spec :
    ∀ (cfgEnv : List String) (existing svcVars : List (String × String))
      (n : String),
      (n ∈ (own_env_vars cfgEnv existing svcVars).map Prod.fst ↔
        (n ∈ cfgEnv ∨ n ∈ existing.map Prod.fst) ∧
          ¬ n ∈ svcVars.map Prod.fst) ∧
      (∀ v : String, (n, v) ∈ own_env_vars cfgEnv existing svcVars →
        v = (alookup existing n).getD "") ∧
      (n ∈ svcVars.map Prod.fst →
        ¬ n ∈ (own_env_vars cfgEnv existing svcVars).map Prod.fst) := by
  intro cfgEnv existing svcVars n
  have hkeys : (own_env_vars cfgEnv existing svcVars).map Prod.fst =
      own_env_vars_names cfgEnv existing svcVars := by
    simp only [own_env_vars, List.map_map]
    exact List.map_id _
  refine ⟨?_, ?_, ?_⟩
  · rw [hkeys, mem_own_env_vars_names]
  · intro v hv
    simp only [own_env_vars, List.mem_map] at hv
    rcases hv with ⟨a, ha, heq⟩
    have h1 : a = n := congrArg Prod.fst heq
    have h2 : (alookup existing a).getD "" = v := congrArg Prod.snd heq
    rw [← h2, h1]
  · intro hs
    rw [hkeys, mem_own_env_vars_names]
    rintro ⟨-, habs⟩
    exact habs hs

/-- C5 witness: with configuration name "A", pre-existing file FOO=bar and a
dependency exporting DB, the app-owned entry for FOO carries the
pre-existing value "bar". -/
theorem generate_env_app_owned_spec_witness :
    "bar" = (alookup [("FOO", "bar")] "FOO").getD "" :=
  (generate_env_app_owned_spec ["A"] [("FOO", "bar")] [("DB", "x")] "FOO").2.1
    "bar" (by decide)

/-- C6: regenerating the environment with unchanged configuration and an
unchanged dependency set reproduces exactly the same app-owned name-to-value
mapping — looking up any name in the second run's app-owned section gives the
first run's answer — and in particular an existing entry FOO=bar claimed by
no dependency is preserved. -/
theorem generate_env_idempotent :
    (∀ (cfgEnv : List String) (svcVars : List (String × String))
        (existing0 : Option (List (String × String))) (n : String),
      alookup (generate_env_own cfgEnv svcVars
        (some (buildEnvMap (generated_file_entries svcVars
          (generate_env_own cfgEnv svcVars existing0))))) n =
        alookup (generate_env_own cfgEnv svcVars existing0) n) ∧
    (∀ (cfgEnv : List String) (svcVars existing : List (String × String)),
      alookup existing "FOO" = some "bar" →
      ¬ "FOO" ∈ svcVars.map Prod.fst →
      alookup (generate_env_own cfgEnv svcVars (some existing)) "FOO"
        = some "bar") := by
  constructor
  · intro cfg svc ex0 n
    simp only [generate_env_own, generated_file_entries, Option.getD_some]
    have hkeys1 : (own_env_vars cfg (ex0.getD []) svc).map Prod.fst =
        own_env_vars_names cfg (ex0.getD []) svc := by
      simp only [own_env_vars, List.map_map]
      exact List.map_id _
    have hE1keys : ∀ m : String,
        m ∈ (buildEnvMap
          (svc ++ own_env_vars cfg (ex0.getD []) svc)).map Prod.fst ↔
          m ∈ svc.map Prod.fst ∨
            m ∈ own_env_vars_names cfg (ex0.getD []) svc := by
      intro m
      rw [keys_buildEnvMap_mem, List.map_append, List.mem_append, hkeys1]
    have hnames :
        n ∈ own_env_vars_names cfg
            (buildEnvMap (svc ++ own_env_vars cfg (ex0.getD []) svc)) svc ↔
          n ∈ own_env_vars_names cfg (ex0.getD []) svc := by
      rw [mem_own_env_vars_names, hE1keys n]
      constructor
      · rintro ⟨hc | hsvc | hn1, hns⟩
        · exact (mem_own_env_vars_names _ _ _ _).mpr ⟨Or.inl hc, hns⟩
        · exact absurd hsvc hns
        · exact hn1
      · intro hn1
        have hns := ((mem_own_env_vars_names _ _ _ _).mp hn1).2
        exact ⟨Or.inr (Or.inr hn1), hns⟩
    have hval : n ∈ own_env_vars_names cfg (ex0.getD []) svc →
        alookup (buildEnvMap (svc ++ own_env_vars cfg (ex0.getD []) svc)) n =
          some ((alookup (ex0.getD []) n).getD "") := by
      intro hn1
      have hns := ((mem_own_env_vars_names _ _ _ _).mp hn1).2
      apply alookup_buildEnvMap_uniform
      · rw [List.map_append, List.mem_append]
        right
        rw [hkeys1]
        exact hn1
      · intro p hp hpn
        rcases List.mem_append.mp hp with hpsvc | hpown
        · exact absurd (List.mem_map.mpr ⟨p, hpsvc, hpn⟩) hns
        · simp only [own_env_vars, List.mem_map] at hpown
          rcases hpown with ⟨a, ha, heq⟩
          have h1 : a = n := by
            rw [← hpn, ← heq]
          have h2 : (alookup (ex0.getD []) a).getD "" = p.2 := congrArg Prod.snd heq
          rw [← h2, h1]
    rw [alookup_own_env_vars, alookup_own_env_vars]
    by_cases hn : n ∈ own_env_vars_names cfg (ex0.getD []) svc
    · rw [if_pos (hnames.mpr hn), if_pos hn, hval hn]
      simp
    · rw [if_neg (fun h => hn (hnames.mp h)), if_neg hn]
  · intro cfg svc ex h1 h2
    simp only [generate_env_own, Option.getD_some]
    rw [alookup_own_env_vars, if_pos]
    · rw [h1]
      rfl
    · rw [mem_own_env_vars_names]
      exact ⟨Or.inr (mem_keys_of_alookup _ _ _ h1), h2⟩

/-- C6 witness: regenerating with config name "A", dependency export DB=x
and pre-existing entry FOO=bar keeps FOO=bar in the app-owned section. -/
theorem generate_env_idempotent_witness :
    alookup (generate_env_own ["A"] [("DB", "x")] (some [("FOO", "bar")]))
      "FOO" = some "bar" :=
  generate_env_idempotent.2 ["A"] [("DB", "x")] [("FOO", "bar")] (by decide)
    (by decide)

end Dploy
